import Mathlib

/-
Verification of the dataset-transform engine (transformplugin.py) and the
CSV import name/type inference (readcsv.py).

Numeric values of numpy double arrays are modelled as extended reals:
a finite real, plus infinities and a not-a-number value, so that the
finite-filtering behaviour of the reduction transforms is expressible.
Rounding of IEEE arithmetic is not modelled; each numpy elementwise
operation is modelled exactly on this extended domain.
-/

namespace Veusz

/-- Drop leading whitespace characters. -/
def dropWS : List Char → List Char
  | [] => []
  | c :: cs => if c.isWhitespace then dropWS cs else c :: cs

/-- Models Python str.strip(): remove whitespace at both ends. -/
def pyStrip (s : String) : String :=
  ⟨(dropWS ((dropWS s.data).reverse)).reverse⟩

/-- Accumulating splitter over characters: current word is held reversed. -/
def wordsAux : List Char → List Char → List (List Char)
  | [], cur => if cur.isEmpty then [] else [cur.reverse]
  | c :: cs, cur =>
    if c.isWhitespace then
      (if cur.isEmpty then wordsAux cs [] else cur.reverse :: wordsAux cs [])
    else wordsAux cs (c :: cur)

/-- Models Python str.split() with no argument: split on whitespace runs,
discarding empty pieces. -/
def pySplit (s : String) : List String :=
  (wordsAux s.data []).map (fun l => ⟨l⟩)

/-- Models Python str.lower(). -/
def pyLower (s : String) : String := ⟨s.data.map Char.toLower⟩

/-- Extended value of a numpy double: finite real, +inf, -inf or nan. -/
inductive EF where
  | fin : ℝ → EF
  | pinf : EF
  | ninf : EF
  | nan : EF

/-- Models numpy isfinite. -/
def EF.isFinite : EF → Bool
  | .fin _ => true
  | _ => false

/-- Models numpy elementwise addition on doubles. -/
noncomputable def efAdd : EF → EF → EF
  | .fin a, .fin b => .fin (a + b)
  | .nan, _ => .nan
  | _, .nan => .nan
  | .pinf, .ninf => .nan
  | .ninf, .pinf => .nan
  | .pinf, _ => .pinf
  | _, .pinf => .pinf
  | .ninf, _ => .ninf
  | _, .ninf => .ninf

/-- Models numpy elementwise subtraction on doubles. -/
noncomputable def efSub : EF → EF → EF
  | .fin a, .fin b => .fin (a - b)
  | .nan, _ => .nan
  | _, .nan => .nan
  | .pinf, .pinf => .nan
  | .ninf, .ninf => .nan
  | .pinf, _ => .pinf
  | .ninf, _ => .ninf
  | _, .pinf => .ninf
  | _, .ninf => .pinf

/-- Models numpy elementwise negation on doubles. -/
noncomputable def efNeg : EF → EF
  | .fin a => .fin (-a)
  | .pinf => .ninf
  | .ninf => .pinf
  | .nan => .nan

/-- Models numpy elementwise multiplication on doubles. -/
noncomputable def efMul : EF → EF → EF
  | .fin a, .fin b => .fin (a * b)
  | .nan, _ => .nan
  | _, .nan => .nan
  | .pinf, .pinf => .pinf
  | .pinf, .ninf => .ninf
  | .ninf, .pinf => .ninf
  | .ninf, .ninf => .pinf
  | .pinf, .fin b => if 0 < b then .pinf else if b < 0 then .ninf else .nan
  | .fin a, .pinf => if 0 < a then .pinf else if a < 0 then .ninf else .nan
  | .ninf, .fin b => if 0 < b then .ninf else if b < 0 then .pinf else .nan
  | .fin a, .ninf => if 0 < a then .ninf else if a < 0 then .pinf else .nan

/-- Models numpy elementwise division on doubles. -/
noncomputable def efDiv : EF → EF → EF
  | .nan, _ => .nan
  | _, .nan => .nan
  | .fin a, .fin b =>
      if b = 0 then (if 0 < a then .pinf else if a < 0 then .ninf else .nan)
      else .fin (a / b)
  | .fin _, .pinf => .fin 0
  | .fin _, .ninf => .fin 0
  | .pinf, .fin b => if b < 0 then .ninf else .pinf
  | .ninf, .fin b => if b < 0 then .pinf else .ninf
  | .pinf, .pinf => .nan
  | .pinf, .ninf => .nan
  | .ninf, .pinf => .nan
  | .ninf, .ninf => .nan

/-- Models numpy elementwise absolute value on doubles. -/
noncomputable def efAbs : EF → EF
  | .fin a => .fin |a|
  | .pinf => .pinf
  | .ninf => .pinf
  | .nan => .nan

/-- Models numpy elementwise squaring (the source writes x**2). -/
noncomputable def efSq : EF → EF
  | .fin a => .fin (a ^ 2)
  | .pinf => .pinf
  | .ninf => .pinf
  | .nan => .nan

/-- Models numpy elementwise square root (nan on negative input). -/
noncomputable def efSqrt : EF → EF
  | .fin a => if a < 0 then .nan else .fin (Real.sqrt a)
  | .pinf => .pinf
  | .ninf => .nan
  | .nan => .nan

/-- Models numpy elementwise maximum (nan-propagating). -/
noncomputable def efMaxOp : EF → EF → EF
  | .nan, _ => .nan
  | _, .nan => .nan
  | .fin a, .fin b => .fin (max a b)
  | .pinf, _ => .pinf
  | _, .pinf => .pinf
  | .ninf, x => x
  | x, .ninf => x

/-- Models numpy elementwise minimum (nan-propagating). -/
noncomputable def efMinOp : EF → EF → EF
  | .nan, _ => .nan
  | _, .nan => .nan
  | .fin a, .fin b => .fin (min a b)
  | .ninf, _ => .ninf
  | _, .ninf => .ninf
  | .pinf, x => x
  | x, .pinf => x

/-- Models numpy clip: clamp below by lo, then above by hi. -/
noncomputable def efClip (v lo hi : EF) : EF := efMinOp (efMaxOp v lo) hi

/-- Modelled from the spec: Dataset1D from datasetplugin (not under src/) is a
numeric series with optional symmetric error serr and optional asymmetric
error sequences perr, nerr. -/
@[ext]
structure DS where
  data : List EF
  serr : Option (List EF)
  perr : Option (List EF)
  nerr : Option (List EF)

/-- Modelled from the spec: Dataset1D.hasErrors from datasetplugin (not under
src/); a dataset has errors when any of serr, perr, nerr is populated. -/
def DS.hasErrors (d : DS) : Bool :=
  d.serr.isSome || d.perr.isSome || d.nerr.isSome

/-- Embedding of _addSubDataset (transformplugin.py lines 83-118).  The source
mutates d1 in place; d2 is only read.  The returned dataset is the new d1. -/
noncomputable def addSubDataset (d1 d2 : DS) (sub : Bool) : DS :=
  let minlen := min d1.data.length d2.data.length
  let newdata :=
    if sub then List.zipWith efSub (d1.data.take minlen) (d2.data.take minlen)
    else List.zipWith efAdd (d1.data.take minlen) (d2.data.take minlen)
  let d1err := d1.hasErrors
  let d2err := d2.hasErrors
  if d2err && !d1err then
    -- copy d2 errors (truncated); untouched fields keep d1 values
    { data := newdata
      serr := match d2.serr with | some s => some (s.take minlen) | none => d1.serr
      perr := match d2.perr with | some s => some (s.take minlen) | none => d1.perr
      nerr := match d2.nerr with | some s => some (s.take minlen) | none => d1.nerr }
  else if d1err && d2err then
    -- symmetrise, square, add, sqrt; source: 0.5*(perr**2 + nerr**2)
    let d1err2 : List EF :=
      match d1.serr with
      | some s => s.map efSq
      | none => List.zipWith (fun a b => efMul (.fin 0.5) (efAdd (efSq a) (efSq b)))
          (d1.perr.getD []) (d1.nerr.getD [])
    let d2err2 : List EF :=
      match d2.serr with
      | some s => s.map efSq
      | none => List.zipWith (fun a b => efMul (.fin 0.5) (efAdd (efSq a) (efSq b)))
          (d2.perr.getD []) (d2.nerr.getD [])
    { data := newdata
      serr := some ((List.zipWith efAdd (d1err2.take minlen) (d2err2.take minlen)).map efSqrt)
      perr := none
      nerr := none }
  else
    -- note in source: if d1err and not d2err, keep existing errors
    { d1 with data := newdata }

/-- Embedding of _multiplyDatasetScalar (transformplugin.py lines 320-327). -/
noncomputable def multiplyDatasetScalar (ds : DS) (val : EF) : DS :=
  { data := ds.data.map (fun x => efMul x val)
    serr := ds.serr.map (List.map (fun x => efMul x val))
    perr := ds.perr.map (List.map (fun x => efMul x val))
    nerr := ds.nerr.map (List.map (fun x => efMul x val)) }

/-- Embedding of _multiplyDatasetDataset (transformplugin.py lines 329-372).
The error combination runs first (reading the original d1.data); the data
product is assigned last, as in the source.  In the branch where only d1 has
errors the inner guards test d2.serr and so on, exactly as the source does;
there the inner assignments are unreachable (d2 has no errors there), and the
Python expression would raise TypeError in those unreachable assignments when
d1 lacks the matching field, which the total model renders as none. -/
noncomputable def multiplyDatasetDataset (d1 d2 : DS) : DS :=
  let minlen := min d1.data.length d2.data.length
  let d1err := d1.hasErrors
  let d2err := d2.hasErrors
  let base :=
    if d2err && !d1err then
      let d1av := (d1.data.take minlen).map efAbs
      { d1 with
        serr := match d2.serr with
          | some s => some (List.zipWith efMul (s.take minlen) d1av)
          | none => d1.serr
        perr := match d2.perr with
          | some s => some (List.zipWith efMul (s.take minlen) d1av)
          | none => d1.perr
        nerr := match d2.nerr with
          | some s => some (List.zipWith efMul (s.take minlen) d1av)
          | none => d1.nerr }
    else if d1err && !d2err then
      let d2av := (d2.data.take minlen).map efAbs
      { d1 with
        serr := match d2.serr with
          | some _ => (match d1.serr with
              | some s => some (List.zipWith efMul (s.take minlen) d2av)
              | none => none)
          | none => d1.serr
        perr := match d2.perr with
          | some _ => (match d1.perr with
              | some s => some (List.zipWith efMul (s.take minlen) d2av)
              | none => none)
          | none => d1.perr
        nerr := match d2.nerr with
          | some _ => (match d1.nerr with
              | some s => some (List.zipWith efMul (s.take minlen) d2av)
              | none => none)
          | none => d1.nerr }
    else if d1err && d2err then
      let d1ferr2 : List EF :=
        match d1.serr with
        | some s => List.zipWith (fun e x => efSq (efDiv e x)) s d1.data
        | none =>
          let e2 := List.zipWith (fun a b => efMul (.fin 0.5) (efAdd (efSq a) (efSq b)))
            (d1.perr.getD []) (d1.nerr.getD [])
          List.zipWith (fun e x => efDiv e (efSq x)) e2 d1.data
      let d2ferr2 : List EF :=
        match d2.serr with
        | some s => List.zipWith (fun e x => efSq (efDiv e x)) s d2.data
        | none =>
          let e2 := List.zipWith (fun a b => efMul (.fin 0.5) (efAdd (efSq a) (efSq b)))
            (d2.perr.getD []) (d2.nerr.getD [])
          List.zipWith (fun e x => efDiv e (efSq x)) e2 d2.data
      { d1 with
        serr := some (List.zipWith efMul
          ((List.zipWith efAdd (d1ferr2.take minlen) (d2ferr2.take minlen)).map efSqrt)
          ((List.zipWith efMul (d1.data.take minlen) (d2.data.take minlen)).map efAbs))
        perr := none
        nerr := none }
    else d1
  { base with data := List.zipWith efMul (d1.data.take minlen) (d2.data.take minlen) }

/-- Embedding of _divideDatasetDataset (transformplugin.py lines 401-448).
The quotient is computed first and assigned to data last, as in the source.
In the branch where only d2 has errors the source assigns d1.serr three times
in sequence, once per populated d2 field (this is the source text, not a
simplification).  In the branch where only d1 has errors the inner guards test
d2 fields, as the source does, making the assignments unreachable. -/
noncomputable def divideDatasetDataset (d1 d2 : DS) : DS :=
  let minlen := min d1.data.length d2.data.length
  let rdat := List.zipWith efDiv (d1.data.take minlen) (d2.data.take minlen)
  let d1err := d1.hasErrors
  let d2err := d2.hasErrors
  let base :=
    if d2err && !d1err then
      let ascale := (List.zipWith efDiv rdat (d2.data.take minlen)).map efAbs
      let s1 := match d2.serr with
        | some s => some (List.zipWith efMul ascale (s.take minlen))
        | none => d1.serr
      let s2 := match d2.perr with
        | some s => some (List.zipWith efMul ascale (s.take minlen))
        | none => s1
      let s3 := match d2.nerr with
        | some s => some (List.zipWith efMul ascale (s.take minlen))
        | none => s2
      { d1 with serr := s3 }
    else if d1err && !d2err then
      { d1 with
        serr := match d2.serr with
          | some _ => (match d1.serr with
              | some s => some (List.zipWith efDiv (s.take minlen) ((d2.data.take minlen).map efAbs))
              | none => none)
          | none => d1.serr
        perr := match d2.perr with
          | some _ => (match d1.perr with
              | some s => some (List.zipWith efDiv (s.take minlen) ((d2.data.take minlen).map efAbs))
              | none => none)
          | none => d1.perr
        nerr := match d2.nerr with
          | some _ => (match d1.nerr with
              | some s => some (List.zipWith efDiv (s.take minlen) ((d2.data.take minlen).map efAbs))
              | none => none)
          | none => d1.nerr }
    else if d1err && d2err then
      let d1ferr2 : List EF :=
        match d1.serr with
        | some s => List.zipWith (fun e x => efSq (efDiv e x)) s d1.data
        | none =>
          let e2 := List.zipWith (fun a b => efMul (.fin 0.5) (efAdd (efSq a) (efSq b)))
            (d1.perr.getD []) (d1.nerr.getD [])
          List.zipWith (fun e x => efDiv e (efSq x)) e2 d1.data
      let d2ferr2 : List EF :=
        match d2.serr with
        | some s => List.zipWith (fun e x => efSq (efDiv e x)) s d2.data
        | none =>
          let e2 := List.zipWith (fun a b => efMul (.fin 0.5) (efAdd (efSq a) (efSq b)))
            (d2.perr.getD []) (d2.nerr.getD [])
          List.zipWith (fun e x => efDiv e (efSq x)) e2 d2.data
      { d1 with
        serr := some (List.zipWith efMul
          ((List.zipWith efAdd (d1ferr2.take minlen) (d2ferr2.take minlen)).map efSqrt)
          (rdat.map efAbs))
        perr := none
        nerr := none }
    else d1
  { base with data := rdat }

/-- Running sums, modelling numpy cumsum. -/
noncomputable def cumsumAux (acc : EF) : List EF → List EF
  | [] => []
  | x :: xs => let a := efAdd acc x; a :: cumsumAux a xs

/-- Embedding of the inner calccum of _cumsum (transformplugin.py lines
147-155): optional reversal, zero the non-finite entries, cumulative sum,
reverse back. -/
noncomputable def calccum (reverse : Bool) (v : List EF) : List EF :=
  let v1 := if reverse then v.reverse else v
  let v2 := v1.map (fun x => if x.isFinite then x else .fin 0)
  let c := cumsumAux (.fin 0) v2
  if reverse then c.reverse else c

/-- Embedding of _cumsum (transformplugin.py lines 146-163): data becomes its
cumulative sum, serr and perr become sqrt of the cumulative sum of their
squares, nerr becomes minus sqrt of the cumulative sum of its squares. -/
noncomputable def cumsumDS (ds : DS) (reverse : Bool) : DS :=
  { data := calccum reverse ds.data
    serr := ds.serr.map (fun s => (calccum reverse (s.map efSq)).map efSqrt)
    perr := ds.perr.map (fun s => (calccum reverse (s.map efSq)).map efSqrt)
    nerr := ds.nerr.map (fun s => ((calccum reverse (s.map efSq)).map efSqrt).map efNeg) }

/-- The finite entries of a list, in order; models data[N.isfinite(data)]. -/
def finVals (l : List EF) : List ℝ :=
  l.filterMap (fun x => match x with | .fin a => some a | _ => none)

/-- Embedding of _subfn (transformplugin.py lines 219-223).  The statistic fn
is one of the numpy reductions (min, max, mean), external collaborators; the
model is parametric in fn, which always returns a finite double on a finite
nonempty input. -/
noncomputable def subfn (fn : List ℝ → ℝ) (ds : DS) : DS :=
  let findata := finVals ds.data
  if findata.length > 0 then
    { ds with data := ds.data.map (fun v => efSub v (.fin (fn findata))) }
  else ds

/-- Embedding of _divfn (transformplugin.py lines 475-485); f is the
reciprocal of the statistic when finite values exist, otherwise 1. -/
noncomputable def divfn (fn : List ℝ → ℝ) (ds : DS) : DS :=
  let findata := finVals ds.data
  let f : EF := if findata.length > 0 then efDiv (.fin 1) (.fin (fn findata)) else .fin 1
  { data := ds.data.map (fun v => efMul v f)
    serr := ds.serr.map (List.map (fun v => efMul v f))
    perr := ds.perr.map (List.map (fun v => efMul v f))
    nerr := ds.nerr.map (List.map (fun v => efMul v f)) }

/-- Minimum of a list of reals; models N.min on a nonempty array (the guard in
the source ensures nonemptiness before it is called). -/
noncomputable def listMin : List ℝ → ℝ
  | [] => 0
  | x :: xs => xs.foldl min x

/-- Maximum of a list of reals; models N.max on a nonempty array. -/
noncomputable def listMax : List ℝ → ℝ
  | [] => 0
  | x :: xs => xs.foldl max x

/-- Embedding of the NormRange invocable (transformplugin.py lines 575-584). -/
noncomputable def normRange (ds : DS) : DS :=
  let findata := finVals ds.data
  if findata.length > 0 then
    let minv := listMin findata
    let maxv := listMax findata
    { ds with data := ds.data.map (fun v =>
        efMul (efSub v (.fin minv)) (efDiv (.fin 1) (.fin (maxv - minv)))) }
  else ds

/-- Embedding of _clip_dataset (transformplugin.py lines 804-819). -/
noncomputable def clipDataset (d : DS) (minv maxv : EF) : DS :=
  let prange : Option (List EF) :=
    match d.serr with
    | some s => some (List.zipWith efAdd d.data s)
    | none => match d.perr with
      | some p => some (List.zipWith efAdd p d.data)
      | none => none
  let nrange : Option (List EF) :=
    match d.serr with
    | some s => some (List.zipWith efSub d.data s)
    | none => match d.nerr with
      | some n => some (List.zipWith efAdd n d.data)
      | none => none
  let newdata := d.data.map (fun v => efClip v minv maxv)
  { data := newdata
    serr := none
    perr := match prange with
      | some pr => some (List.zipWith efSub (pr.map (fun v => efClip v minv maxv)) newdata)
      | none => d.perr
    nerr := match nrange with
      | some nr => some (List.zipWith efSub (nr.map (fun v => efClip v minv maxv)) newdata)
      | none => d.nerr }

/-- Embedding of dsCodeToIdx (transformplugin.py lines 50-64); unknown codes
raise ValueError. -/
def dsCodeToIdx (code : String) : Except String (Fin 5) :=
  match pyLower code with
  | "x" => .ok 0
  | "y" => .ok 1
  | "l" => .ok 2
  | "label" => .ok 2
  | "s" => .ok 3
  | "size" => .ok 3
  | "c" => .ok 4
  | "color" => .ok 4
  | _ => .error "ValueError: Unknown dataset code"

/-- Second operand of the arithmetic transforms: a scalar or a dataset. -/
inductive Operand where
  | scalar : EF → Operand
  | dsv : DS → Operand

/-- Embedding of _subfrom (transformplugin.py lines 287-291).  For a dataset
operand the source calls _addSubDataset(val, ds, sub=True), mutating val; the
slot dataset ds is only read.  The result pairs the (possibly new) slot
dataset with the new operand dataset when there is one. -/
noncomputable def subfrom (ds : DS) (val : Operand) : DS × Option DS :=
  match val with
  | .dsv v => (ds, some (addSubDataset v ds true))
  | .scalar c => ({ ds with data := ds.data.map (fun x => efSub c x) }, none)

/-- Embedding of the SubFrom invocable (transformplugin.py lines 293-299)
over a 5-slot dataset array; returns the updated slots and the updated
operand dataset when the operand was a dataset. -/
noncomputable def SubFromOp (dss : Fin 5 → DS) (outds : String) (val : Operand) :
    Except String ((Fin 5 → DS) × Option DS) :=
  match dsCodeToIdx outds with
  | .error e => .error e
  | .ok idx =>
    let r := subfrom (dss idx) val
    .ok (fun i => if i = idx then r.1 else dss i, r.2)

/-- Spec-side definition, for comparison with the code: the symmetrised error
of a dataset in the words of the spec, serr when present, otherwise
sqrt(0.5*(perr**2 + nerr**2)) when both asymmetric sequences exist. -/
noncomputable def symErr (d : DS) : Option (List EF) :=
  match d.serr with
  | some s => some s
  | none => match d.perr, d.nerr with
    | some p, some n =>
      some (List.zipWith (fun a b => efSqrt (efMul (.fin 0.5) (efAdd (efSq a) (efSq b)))) p n)
    | _, _ => none

/-
CSV import engine (readcsv.py).  The generic CSV tokenizer and the float and
date parsers of the host are external collaborators: the model takes the rows
of raw string tokens directly, and the two parsers as parameters.  Values are
modelled as rationals (no rounding is at issue in these claims).
-/

/-- A value accumulated in a column: a parsed number or a raw string. -/
inductive CVal where
  | num : ℚ → CVal
  | str : String → CVal
deriving DecidableEq

/-- Column-type state of one readData invocation (readcsv.py lines 165-171
plus the per-reader data dict of __init__). -/
structure CState where
  colnames : Nat → Option String
  coltypes : List String
  nametypes : String → Option String
  data : String → Option (List CVal)

/-- Reader configuration: name prefix and suffix, read orientation, and the
external float and date parsers (None models a raised ValueError). -/
structure CParams where
  pfx : String
  sfx : String
  readrows : Bool
  pFloat : String → Option ℚ
  pDate : String → Option ℚ

/-- Pointwise update of a string-keyed map. -/
def updStr {α : Type} (f : String → α) (k : String) (v : α) : String → α :=
  fun x => if x = k then v else f x

/-- Pointwise update of a nat-keyed map. -/
def updNat {α : Type} (f : Nat → α) (k : Nat) (v : α) : Nat → α :=
  fun x => if x = k then v else f x

/-- Embedding of ReadCSV._generateName (readcsv.py lines 101-109). -/
def generateName (p : CParams) (column : Nat) : String :=
  let base := if p.readrows then "row" else "col"
  p.pfx ++ base ++ toString (column + 1) ++ p.sfx

/-- The last character of a string, models n[-1] (callers guard len(n) > 0). -/
def lastChar (n : String) : Char := n.data.getLastD 'A'

/-- The test len(n) > 0 and n[-1] not in "+-" from the scan loop. -/
def goodBase (n : String) : Bool :=
  n.data.length > 0 && lastChar n ≠ '+' && lastChar n ≠ '-'

/-- The while loop of _getNameAndColType (readcsv.py lines 120-127): scan
column indices k-1, k-2, ..., 0.  self.colnames[prevcol] on an unnamed column
raises KeyError; self.coltypes[prevcol] out of range raises IndexError.
Returns the (type, name) pair of the early return, or none when the loop
runs out. -/
def scanPrev (st : CState) (nm : String) : Nat → Except String (Option (String × String))
  | 0 => .ok none
  | k + 1 =>
    match st.colnames k with
    | none => .error "KeyError"
    | some n =>
      if goodBase n then
        match st.coltypes.get? k with
        | some t => .ok (some (t, n ++ nm))
        | none => .error "IndexError"
      else scanPrev st nm k

/-- Resolution of the parenthesised type word (readcsv.py lines 131-136). -/
def resolveTypeWord (w : String) : String :=
  if w = "(string)" ∨ w = "(text)" then "string"
  else if w = "(date)" ∨ w = "(time)" then "date"
  else "float"

/-- Embedding of ReadCSV._getNameAndColType (readcsv.py lines 111-137).  The
source indexes s[0] and s[-1]; callers only pass stripped non-blank tokens,
for which the split is nonempty, so the defaulted head and last model the
reachable behaviour. -/
def getNameAndColType (p : CParams) (st : CState) (colnum : Nat) (colval : String) :
    Except String (String × String) :=
  let s := pySplit (pyStrip colval)
  let nm := s.headD ""
  let ctw := s.getLastD ""
  if nm = "+" ∨ nm = "-" ∨ nm = "+-" then
    match scanPrev st nm colnum with
    | .error e => .error e
    | .ok (some r) => .ok r
    | .ok none =>
      -- did not find anything: fall back to the generated name
      let nm2 := generateName p colnum
      .ok (resolveTypeWord ctw, p.pfx ++ nm2 ++ p.sfx)
  else
    .ok (resolveTypeWord ctw, p.pfx ++ nm ++ p.sfx)

/-- Embedding of ReadCSV._setNameAndType (readcsv.py lines 139-147); the
while loop padding coltypes with empty entries is the replicate append. -/
def setNameAndType (st : CState) (colnum : Nat) (colname coltype : String) : CState :=
  { coltypes :=
      (st.coltypes ++ List.replicate (colnum + 1 - st.coltypes.length) "").set colnum coltype
    nametypes := updStr st.nametypes colname (some coltype)
    colnames := updNat st.colnames colnum (some colname)
    data := if (st.data colname).isSome then st.data else updStr st.data colname (some []) }

/-- The current type of a column (readcsv.py lines 183-186): float when unset
or empty, otherwise the registered entry. -/
def ctypeOf (st : CState) (colnum : Nat) : String :=
  if colnum ≥ st.coltypes.length ∨ st.coltypes.getD colnum "" = "" then "float"
  else st.coltypes.getD colnum ""

/-- Embedding of the per-token body of ReadCSV.readData (readcsv.py lines
181-217): convert under the current column type; on conversion failure skip
blanks and otherwise reinterpret the token as a header directive; on success
auto-name the column when needed and append the value. -/
def processToken (p : CParams) (st : CState) (colnum : Nat) (col : String) :
    Except String CState :=
  let ctype := ctypeOf st colnum
  let conv : Except String (Option CVal) :=
    if ctype = "float" then .ok ((p.pFloat col).map CVal.num)
    else if ctype = "date" then .ok ((p.pDate col).map CVal.num)
    else if ctype = "string" then .ok (some (CVal.str col))
    else .error "NameError"
  match conv with
  | .error e => .error e
  | .ok none =>
    let c := pyStrip col
    if c = "" then .ok st
    else
      match getNameAndColType p st colnum c with
      | .error e => .error e
      | .ok (t, nm) => .ok (setNameAndType st colnum nm t)
  | .ok (some v) =>
    let st1 :=
      if (st.colnames colnum).isSome then st
      else setNameAndType st colnum (generateName p colnum) "float"
    match st1.colnames colnum with
    | none => .error "KeyError"
    | some nm =>
      match st1.data nm with
      | none => .error "KeyError"
      | some coldata => .ok { st1 with data := updStr st1.data nm (some (coldata ++ [v])) }

/-- One line (or column) of tokens, enumerated from the given column index. -/
def processCols (p : CParams) : CState → Nat → List String → Except String CState
  | st, _, [] => .ok st
  | st, colnum, col :: rest =>
    match processToken p st colnum col with
    | .error e => .error e
    | .ok st2 => processCols p st2 (colnum + 1) rest

/-- The fresh state at the start of readData. -/
def initState : CState :=
  { colnames := fun _ => none
    coltypes := []
    nametypes := fun _ => none
    data := fun _ => none }

/-- Embedding of ReadCSV.readData (readcsv.py lines 149-217) applied to the
token rows produced by the external tokenizer. -/
def readData (p : CParams) (lines : List (List String)) : Except String CState :=
  lines.foldl
    (fun acc line =>
      match acc with
      | .error e => .error e
      | .ok st => processCols p st 0 line)
    (.ok initState)

/-- The registered name of a column after a run, none on a raised error. -/
def colNameAt (r : Except String CState) (i : Nat) : Option String :=
  match r with
  | .ok st => st.colnames i
  | .error _ => none

/-- Whether a run raised. -/
def runErr (r : Except String CState) : Option String :=
  match r with
  | .ok _ => none
  | .error e => some e

/-- A concrete instance of the external float parser for the counterexample
runs: parses the decimal literals used there, fails on everything else, as
Python float() does on those tokens. -/
def toyFloat (s : String) : Option ℚ :=
  if s = "1" then some 1
  else if s = "2" then some 2
  else if s = "3" then some 3
  else if s = "4" then some 4
  else none

/-- A concrete instance of the external date parser: always fails. -/
def toyDate (_ : String) : Option ℚ := none

/-- Reader configuration used by the concrete runs: empty prefix and suffix,
column orientation. -/
def toyParams : CParams :=
  { pfx := "", sfx := "", readrows := false, pFloat := toyFloat, pDate := toyDate }

/-- Decidable equality of run results with decidable components. -/
instance {ε α : Type} [DecidableEq ε] [DecidableEq α] : DecidableEq (Except ε α) :=
  fun a b =>
    match a, b with
    | .ok x, .ok y =>
      if h : x = y then .isTrue (by rw [h]) else .isFalse (by intro hh; cases hh; exact h rfl)
    | .error x, .error y =>
      if h : x = y then .isTrue (by rw [h]) else .isFalse (by intro hh; cases hh; exact h rfl)
    | .ok _, .error _ => .isFalse (by intro hh; cases hh)
    | .error _, .ok _ => .isFalse (by intro hh; cases hh)

/-
Helper lemmas about the extended values and lists of them.
-/

/-- Multiplying any extended value by the finite scalar 1 is the identity. -/
theorem efMul_one (v : EF) : efMul v (.fin 1) = v := by
  cases v <;> simp [efMul]

/-- Mapping multiplication by 1 over a list is the identity. -/
theorem map_efMul_one (l : List EF) : l.map (fun v => efMul v (.fin 1)) = l := by
  induction l with
  | nil => rfl
  | cons x xs ih => simp [efMul_one, ih]

/-- Negation swaps the operands of extended subtraction. -/
theorem efNeg_efSub (a b : EF) : efNeg (efSub a b) = efSub b a := by
  cases a <;> cases b <;> simp [efSub, efNeg, neg_sub]

/-- Mapping negation over a zipWith of subtractions swaps the lists. -/
theorem map_efNeg_zipWith_efSub (a b : List EF) :
    (List.zipWith efSub a b).map efNeg = List.zipWith efSub b a := by
  induction a generalizing b with
  | nil => cases b <;> rfl
  | cons x xs ih =>
    cases b with
    | nil => rfl
    | cons y ys => simp [List.zipWith, efNeg_efSub, ih]

/-- Squaring the square root of the symmetrised asymmetric combination
0.5*(p**2 + n**2) gives the combination back: the value is nonnegative
whenever it is finite, and the extended cases agree. -/
theorem efSq_efSqrt_half (p n : EF) :
    efSq (efSqrt (efMul (.fin 0.5) (efAdd (efSq p) (efSq n)))) =
      efMul (.fin 0.5) (efAdd (efSq p) (efSq n)) := by
  have hfin : ∀ a b : ℝ,
      efSq (efSqrt (efMul (.fin 0.5) (efAdd (efSq (.fin a)) (efSq (.fin b))))) =
        efMul (.fin 0.5) (efAdd (efSq (.fin a)) (efSq (.fin b))) := by
    intro a b
    have hnn : (0 : ℝ) ≤ 0.5 * (a ^ 2 + b ^ 2) := by positivity
    simp only [efSq, efAdd, efMul, efSqrt]
    rw [if_neg (not_lt.mpr hnn)]
    simp only [efSq]
    rw [Real.sq_sqrt hnn]
  cases p <;> cases n <;>
    first
    | apply hfin
    | norm_num [efSq, efAdd, efMul, efSqrt]

/-- The running sum preserves list length. -/
theorem cumsumAux_length (acc : EF) (l : List EF) : (cumsumAux acc l).length = l.length := by
  induction l generalizing acc with
  | nil => rfl
  | cons x xs ih => simp [cumsumAux, ih]

/-- calccum preserves list length. -/
theorem calccum_length (reverse : Bool) (v : List EF) : (calccum reverse v).length = v.length := by
  cases reverse <;> simp [calccum, cumsumAux_length]

/-- A dataset without errors has all three error fields unpopulated. -/
theorem hasErrors_false_fields (d : DS) (h : d.hasErrors = false) :
    d.serr = none ∧ d.perr = none ∧ d.nerr = none := by
  refine ⟨?_, ?_, ?_⟩ <;>
    first
    | (cases hs : d.serr with
       | none => rfl
       | some s => simp [DS.hasErrors, hs] at h)
    | (cases hs : d.perr with
       | none => rfl
       | some s => simp [DS.hasErrors, hs] at h)
    | (cases hs : d.nerr with
       | none => rfl
       | some s => simp [DS.hasErrors, hs] at h)

/-
Claims.
-/

/-- C1  The claim says that when only d1 has errors, Mul rescales d1's error
sequences by the absolute values of d2's data and Div divides them by the
same; in the code this branch guards every assignment on d2's error fields,
which are all None there, so d1's errors pass through unchanged.  At
d1.data=[2], d1.serr=[1], d2.data=[3] the code leaves serr at [1], where the
claim requires [3] for Mul (and [1/3] for Div). -/
theorem c1_mul_div_d1err_branch_dead :
    (multiplyDatasetDataset ⟨[.fin 2], some [.fin 1], none, none⟩
        ⟨[.fin 3], none, none, none⟩).serr = some [.fin 1] ∧
    (multiplyDatasetDataset ⟨[.fin 2], some [.fin 1], none, none⟩
        ⟨[.fin 3], none, none, none⟩).serr ≠ some [.fin 3] ∧
    (divideDatasetDataset ⟨[.fin 2], some [.fin 1], none, none⟩
        ⟨[.fin 3], none, none, none⟩).serr = some [.fin 1] ∧
    (multiplyDatasetDataset ⟨[.fin 2], some [.fin 1], none, none⟩
        ⟨[.fin 3], none, none, none⟩).data = [.fin 6] := by
  refine ⟨?_, ?_, ?_, ?_⟩ <;>
    norm_num [multiplyDatasetDataset, divideDatasetDataset, DS.hasErrors, efMul, efAbs, efDiv]

/-- C2 counterexample  The claim says Div copies d2.perr onto d1.perr scaled
by the absolute d1 data; on d1.data=[1] (no errors), d2.data=[2],
d2.perr=[1/2] the code leaves d1.perr unpopulated and instead writes the
fractionally scaled sequence [1/8] into d1.serr (the claimed d1.perr value
would be [1/2]). -/
theorem c2_div_copies_into_serr_cex :
    (divideDatasetDataset ⟨[.fin 1], none, none, none⟩
        ⟨[.fin 2], none, some [.fin (1/2)], none⟩).perr = none ∧
    (divideDatasetDataset ⟨[.fin 1], none, none, none⟩
        ⟨[.fin 2], none, some [.fin (1/2)], none⟩).serr = some [.fin (1/8)] := by
  constructor <;>
    norm_num [divideDatasetDataset, DS.hasErrors, efDiv, efMul, efAbs, abs_of_pos]

/-- C2 amended  When only d2 has errors: Mul copies each populated d2 error
field onto the same field of d1, truncated and scaled elementwise by the
absolute d1 data, as the claim states; Div instead scales each populated d2
error sequence by the absolute value of (d1/d2)/d2 and writes every one of
them into d1.serr, in the order serr, perr, nerr with each assignment
overwriting the previous, leaving d1.perr and d1.nerr unpopulated. -/
theorem c2_d2err_only_mul_div (d1 d2 : DS)
    (h1 : d1.hasErrors = false) (h2 : d2.hasErrors = true) :
    ((multiplyDatasetDataset d1 d2).serr =
      d2.serr.map (fun s =>
        List.zipWith efMul (s.take (min d1.data.length d2.data.length))
          ((d1.data.take (min d1.data.length d2.data.length)).map efAbs))) ∧
    ((multiplyDatasetDataset d1 d2).perr =
      d2.perr.map (fun s =>
        List.zipWith efMul (s.take (min d1.data.length d2.data.length))
          ((d1.data.take (min d1.data.length d2.data.length)).map efAbs))) ∧
    ((multiplyDatasetDataset d1 d2).nerr =
      d2.nerr.map (fun s =>
        List.zipWith efMul (s.take (min d1.data.length d2.data.length))
          ((d1.data.take (min d1.data.length d2.data.length)).map efAbs))) ∧
    ((multiplyDatasetDataset d1 d2).data =
      List.zipWith efMul (d1.data.take (min d1.data.length d2.data.length))
        (d2.data.take (min d1.data.length d2.data.length))) ∧
    ((divideDatasetDataset d1 d2).perr = none) ∧
    ((divideDatasetDataset d1 d2).nerr = none) ∧
    ((divideDatasetDataset d1 d2).data =
      List.zipWith efDiv (d1.data.take (min d1.data.length d2.data.length))
        (d2.data.take (min d1.data.length d2.data.length))) ∧
    ((divideDatasetDataset d1 d2).serr =
      (match d2.nerr with
       | some s => some (List.zipWith efMul
           ((List.zipWith efDiv
               (List.zipWith efDiv (d1.data.take (min d1.data.length d2.data.length))
                 (d2.data.take (min d1.data.length d2.data.length)))
               (d2.data.take (min d1.data.length d2.data.length))).map efAbs)
           (s.take (min d1.data.length d2.data.length)))
       | none => match d2.perr with
         | some s => some (List.zipWith efMul
             ((List.zipWith efDiv
                 (List.zipWith efDiv (d1.data.take (min d1.data.length d2.data.length))
                   (d2.data.take (min d1.data.length d2.data.length)))
                 (d2.data.take (min d1.data.length d2.data.length))).map efAbs)
             (s.take (min d1.data.length d2.data.length)))
         | none => d2.serr.map (fun s => List.zipWith efMul
             ((List.zipWith efDiv
                 (List.zipWith efDiv (d1.data.take (min d1.data.length d2.data.length))
                   (d2.data.take (min d1.data.length d2.data.length)))
                 (d2.data.take (min d1.data.length d2.data.length))).map efAbs)
             (s.take (min d1.data.length d2.data.length))))) := by
  obtain ⟨hs1, hp1, hn1⟩ := hasErrors_false_fields d1 h1
  refine ⟨?_, ?_, ?_, ?_, ?_, ?_, ?_, ?_⟩ <;>
    first
    | rfl
    | (simp only [multiplyDatasetDataset, divideDatasetDataset, h1, h2]
       cases hds : d2.serr <;> cases hdp : d2.perr <;> cases hdn : d2.nerr <;>
         simp_all [DS.hasErrors])

/-- C2 witness  The amended behaviour at d1.data=[2] without errors and
d2.data=[3] with serr=[1]. -/
theorem c2_d2err_only_mul_div_witness :
    (DS.hasErrors ⟨[.fin 2], none, none, none⟩ = false) ∧
    (DS.hasErrors ⟨[.fin 3], some [.fin 1], none, none⟩ = true) ∧
    ((multiplyDatasetDataset ⟨[.fin 2], none, none, none⟩
        ⟨[.fin 3], some [.fin 1], none, none⟩).serr =
      some [efMul (.fin 1) (efAbs (.fin 2))] ∧
     (multiplyDatasetDataset ⟨[.fin 2], none, none, none⟩
        ⟨[.fin 3], some [.fin 1], none, none⟩).perr = none) := by
  refine ⟨rfl, rfl, ?_⟩
  obtain ⟨h1, h2, h3, h4, h5, h6, h7, h8⟩ :=
    c2_d2err_only_mul_div ⟨[.fin 2], none, none, none⟩
      ⟨[.fin 3], some [.fin 1], none, none⟩ rfl rfl
  constructor
  · rw [h1]; rfl
  · rw [h2]; rfl

/-- C3 counterexample  The claim says the cumulative-sum transform stores the
recomputed deltas as perr and nerr and leaves serr unpopulated; on
data=[1,1], serr=[3,4] the code keeps serr populated and creates no perr. -/
theorem c3_cumsum_keeps_serr_cex :
    (cumsumDS ⟨[.fin 1, .fin 1], some [.fin 3, .fin 4], none, none⟩ false).serr ≠ none ∧
    (cumsumDS ⟨[.fin 1, .fin 1], some [.fin 3, .fin 4], none, none⟩ false).perr = none := by
  constructor
  · simp [cumsumDS]
  · rfl

/-- C3 amended  The cumulative-sum transform propagates each populated error
sequence in place and in quadrature: serr and perr become the square root of
the cumulative sum of their squares, nerr becomes minus that; serr stays
populated exactly when it was populated before, and data keeps its length. -/
theorem c3_cumsum_quadrature (ds : DS) (rev : Bool) :
    ((cumsumDS ds rev).data = calccum rev ds.data) ∧
    ((cumsumDS ds rev).data.length = ds.data.length) ∧
    ((cumsumDS ds rev).serr.isSome = ds.serr.isSome) ∧
    (∀ s, ds.serr = some s →
      (cumsumDS ds rev).serr = some ((calccum rev (s.map efSq)).map efSqrt)) ∧
    (∀ s, ds.perr = some s →
      (cumsumDS ds rev).perr = some ((calccum rev (s.map efSq)).map efSqrt)) ∧
    (∀ s, ds.nerr = some s →
      (cumsumDS ds rev).nerr = some (((calccum rev (s.map efSq)).map efSqrt).map efNeg)) := by
  refine ⟨rfl, ?_, ?_, ?_, ?_, ?_⟩
  · simp [cumsumDS, calccum_length]
  · cases hs : ds.serr <;> simp [cumsumDS, hs]
  · intro s hs; simp [cumsumDS, hs]
  · intro s hs; simp [cumsumDS, hs]
  · intro s hs; simp [cumsumDS, hs]

/-- C3 witness  At data=[1,1], serr=[3,4] the forward cumulative sum keeps a
populated symmetric error, evaluating to [3,5]. -/
theorem c3_cumsum_quadrature_witness :
    ((⟨[.fin 1, .fin 1], some [.fin 3, .fin 4], none, none⟩ : DS).serr
      = some [.fin 3, .fin 4]) ∧
    (cumsumDS ⟨[.fin 1, .fin 1], some [.fin 3, .fin 4], none, none⟩ false).serr
      = some ((calccum false ([.fin 3, .fin 4].map efSq)).map efSqrt) ∧
    (cumsumDS ⟨[.fin 1, .fin 1], some [.fin 3, .fin 4], none, none⟩ false).serr
      = some [.fin 3, .fin 5] := by
  refine ⟨rfl, (c3_cumsum_quadrature _ false).2.2.2.1 _ rfl, ?_⟩
  rw [(c3_cumsum_quadrature ⟨[.fin 1, .fin 1], some [.fin 3, .fin 4], none, none⟩
    false).2.2.2.1 _ rfl]
  have h9 : Real.sqrt 9 = 3 := by
    rw [show (9 : ℝ) = 3 ^ 2 by norm_num, Real.sqrt_sq (by norm_num : (0:ℝ) ≤ 3)]
  have h25 : Real.sqrt 25 = 5 := by
    rw [show (25 : ℝ) = 5 ^ 2 by norm_num, Real.sqrt_sq (by norm_num : (0:ℝ) ≤ 5)]
  norm_num [calccum, cumsumAux, efSq, efAdd, EF.isFinite, efSqrt, h9, h25]

/-- Every populated error sequence of r has length m. -/
def errLenAll (r : DS) (m : Nat) : Prop :=
  (∀ s, r.serr = some s → s.length = m) ∧
  (∀ s, r.perr = some s → s.length = m) ∧
  (∀ s, r.nerr = some s → s.length = m)

/-- The documented length invariant: populated errors match the data length. -/
def errWF (d : DS) : Prop := errLenAll d d.data.length

/-- Errors come as a symmetric sequence or as a full asymmetric pair (the
documented mutually-exclusive representation; a lone perr or nerr would make
the Python symmetrisation raise TypeError). -/
def errShapeOK (d : DS) : Prop :=
  d.serr.isSome = true ∨ (d.perr.isSome = true ∧ d.nerr.isSome = true) ∨ d.hasErrors = false

/-- What actually holds after a binary dataset-dataset operation: the data is
truncated to the shared minimum length, and every error sequence the
operation wrote has that length, except that when only d1 has errors all
three error fields pass through unchanged (at their original lengths). -/
def truncOK (d1 d2 r : DS) : Prop :=
  r.data.length = min d1.data.length d2.data.length ∧
  (if d1.hasErrors = true ∧ d2.hasErrors = false
   then r.serr = d1.serr ∧ r.perr = d1.perr ∧ r.nerr = d1.nerr
   else errLenAll r (min d1.data.length d2.data.length))

/-- Truncation behaviour of _addSubDataset (covers Add, Sub and, with the
operands swapped, SubFrom). -/
theorem addSub_truncOK (d1 d2 : DS) (sub : Bool) (hw1 : errWF d1) (hw2 : errWF d2)
    (hs1 : errShapeOK d1) (hs2 : errShapeOK d2) :
    truncOK d1 d2 (addSubDataset d1 d2 sub) := by
  obtain ⟨hw1s, hw1p, hw1n⟩ := hw1
  obtain ⟨hw2s, hw2p, hw2n⟩ := hw2
  have hm1 : min d1.data.length d2.data.length ≤ d1.data.length := Nat.min_le_left _ _
  have hm2 : min d1.data.length d2.data.length ≤ d2.data.length := Nat.min_le_right _ _
  cases h1 : d1.hasErrors <;> cases h2 : d2.hasErrors
  · -- neither has errors
    obtain ⟨e1s, e1p, e1n⟩ := hasErrors_false_fields d1 h1
    refine ⟨?_, ?_⟩
    · cases sub <;>
        simp [addSubDataset, h1, h2, List.length_zipWith, List.length_take]
    · rw [if_neg (by simp [h1])]
      refine ⟨?_, ?_, ?_⟩ <;>
        (intro s hs
         cases sub <;> simp [addSubDataset, h1, h2, e1s, e1p, e1n] at hs)
  · -- only d2 has errors
    obtain ⟨e1s, e1p, e1n⟩ := hasErrors_false_fields d1 h1
    refine ⟨?_, ?_⟩
    · cases sub <;>
        simp [addSubDataset, h1, h2, List.length_zipWith, List.length_take]
    · rw [if_neg (by simp [h1])]
      refine ⟨?_, ?_, ?_⟩
      · intro s hs
        cases hds : d2.serr with
        | none => cases sub <;> simp [addSubDataset, h1, h2, hds, e1s] at hs
        | some t =>
          have hlen := hw2s t hds
          cases sub <;> simp [addSubDataset, h1, h2, hds] at hs <;>
            simp [← hs, List.length_take] <;> omega
      · intro s hs
        cases hds : d2.perr with
        | none => cases sub <;> simp [addSubDataset, h1, h2, hds, e1p] at hs
        | some t =>
          have hlen := hw2p t hds
          cases sub <;> simp [addSubDataset, h1, h2, hds] at hs <;>
            simp [← hs, List.length_take] <;> omega
      · intro s hs
        cases hds : d2.nerr with
        | none => cases sub <;> simp [addSubDataset, h1, h2, hds, e1n] at hs
        | some t =>
          have hlen := hw2n t hds
          cases sub <;> simp [addSubDataset, h1, h2, hds] at hs <;>
            simp [← hs, List.length_take] <;> omega
  · -- only d1 has errors: errors are kept unchanged
    refine ⟨?_, ?_⟩
    · cases sub <;>
        simp [addSubDataset, h1, h2, List.length_zipWith, List.length_take]
    · rw [if_pos ⟨h1, h2⟩]
      refine ⟨?_, ?_, ?_⟩ <;> (cases sub <;> simp [addSubDataset, h1, h2])
  · -- both have errors
    refine ⟨?_, ?_⟩
    · cases sub <;>
        simp [addSubDataset, h1, h2, List.length_zipWith, List.length_take]
    · rw [if_neg (by simp [h2])]
      have hlen1 : ∀ l, (match d1.serr with
          | some s => s.map efSq
          | none => List.zipWith (fun a b => efMul (.fin 0.5) (efAdd (efSq a) (efSq b)))
              (d1.perr.getD []) (d1.nerr.getD [])) = l → l.length = d1.data.length := by
        intro l hl
        cases hd1s : d1.serr with
        | some t => rw [hd1s] at hl; simp [← hl, hw1s t hd1s]
        | none =>
          rcases hs1 with hh | ⟨hp, hn⟩ | hh
          · simp [hd1s] at hh
          · obtain ⟨pp, hpp⟩ := Option.isSome_iff_exists.mp hp
            obtain ⟨nn, hnn⟩ := Option.isSome_iff_exists.mp hn
            rw [hd1s] at hl
            simp [← hl, hpp, hnn, List.length_zipWith, hw1p pp hpp, hw1n nn hnn]
          · rw [h1] at hh; cases hh
      have hlen2 : ∀ l, (match d2.serr with
          | some s => s.map efSq
          | none => List.zipWith (fun a b => efMul (.fin 0.5) (efAdd (efSq a) (efSq b)))
              (d2.perr.getD []) (d2.nerr.getD [])) = l → l.length = d2.data.length := by
        intro l hl
        cases hd2s : d2.serr with
        | some t => rw [hd2s] at hl; simp [← hl, hw2s t hd2s]
        | none =>
          rcases hs2 with hh | ⟨hp, hn⟩ | hh
          · simp [hd2s] at hh
          · obtain ⟨pp, hpp⟩ := Option.isSome_iff_exists.mp hp
            obtain ⟨nn, hnn⟩ := Option.isSome_iff_exists.mp hn
            rw [hd2s] at hl
            simp [← hl, hpp, hnn, List.length_zipWith, hw2p pp hpp, hw2n nn hnn]
          · rw [h2] at hh; cases hh
      refine ⟨?_, ?_, ?_⟩
      · intro s hs
        have l1 := hlen1 _ rfl
        have l2 := hlen2 _ rfl
        cases sub <;> simp only [addSubDataset, h1, h2] at hs <;>
          simp at hs <;>
          simp [← hs, List.length_zipWith, List.length_take] <;> omega
      · intro s hs
        cases sub <;> simp [addSubDataset, h1, h2] at hs
      · intro s hs
        cases sub <;> simp [addSubDataset, h1, h2] at hs



/-- Truncation behaviour of _multiplyDatasetDataset. -/
theorem mul_truncOK (d1 d2 : DS) (hw1 : errWF d1) (hw2 : errWF d2)
    (hs1 : errShapeOK d1) (hs2 : errShapeOK d2) :
    truncOK d1 d2 (multiplyDatasetDataset d1 d2) := by
  obtain ⟨hw1s, hw1p, hw1n⟩ := hw1
  obtain ⟨hw2s, hw2p, hw2n⟩ := hw2
  have hm1 : min d1.data.length d2.data.length ≤ d1.data.length := Nat.min_le_left _ _
  have hm2 : min d1.data.length d2.data.length ≤ d2.data.length := Nat.min_le_right _ _
  refine ⟨by simp [multiplyDatasetDataset, List.length_zipWith, List.length_take], ?_⟩
  cases h1 : d1.hasErrors <;> cases h2 : d2.hasErrors
  · -- neither
    obtain ⟨e1s, e1p, e1n⟩ := hasErrors_false_fields d1 h1
    rw [if_neg (by simp [h1])]
    refine ⟨?_, ?_, ?_⟩ <;>
      (intro s hs; simp [multiplyDatasetDataset, h1, h2, e1s, e1p, e1n] at hs)
  · -- only d2
    obtain ⟨e1s, e1p, e1n⟩ := hasErrors_false_fields d1 h1
    rw [if_neg (by simp [h1])]
    refine ⟨?_, ?_, ?_⟩
    · intro s hs
      cases hds : d2.serr with
      | none => simp [multiplyDatasetDataset, h1, h2, hds, e1s] at hs
      | some t =>
        have hlen := hw2s t hds
        simp [multiplyDatasetDataset, h1, h2, hds] at hs
        simp [← hs, List.length_take, List.length_zipWith]
        omega
    · intro s hs
      cases hds : d2.perr with
      | none => simp [multiplyDatasetDataset, h1, h2, hds, e1p] at hs
      | some t =>
        have hlen := hw2p t hds
        simp [multiplyDatasetDataset, h1, h2, hds] at hs
        simp [← hs, List.length_take, List.length_zipWith]
        omega
    · intro s hs
      cases hds : d2.nerr with
      | none => simp [multiplyDatasetDataset, h1, h2, hds, e1n] at hs
      | some t =>
        have hlen := hw2n t hds
        simp [multiplyDatasetDataset, h1, h2, hds] at hs
        simp [← hs, List.length_take, List.length_zipWith]
        omega
  · -- only d1: errors kept (dead inner guards)
    obtain ⟨e2s, e2p, e2n⟩ := hasErrors_false_fields d2 h2
    rw [if_pos ⟨rfl, rfl⟩]
    refine ⟨?_, ?_, ?_⟩ <;> simp [multiplyDatasetDataset, h1, h2, e2s, e2p, e2n]
  · -- both
    rw [if_neg (by simp [h2])]
    have hlen1 : ∀ l, (match d1.serr with
        | some s => List.zipWith (fun e x => efSq (efDiv e x)) s d1.data
        | none =>
          List.zipWith (fun e x => efDiv e (efSq x))
            (List.zipWith (fun a b => efMul (.fin 0.5) (efAdd (efSq a) (efSq b)))
              (d1.perr.getD []) (d1.nerr.getD [])) d1.data) = l →
        l.length = min d1.data.length d1.data.length := by
      intro l hl
      cases hd1s : d1.serr with
      | some t =>
        rw [hd1s] at hl
        simp [← hl, List.length_zipWith, hw1s t hd1s]
      | none =>
        rcases hs1 with hh | ⟨hp, hn⟩ | hh
        · simp [hd1s] at hh
        · obtain ⟨pp, hpp⟩ := Option.isSome_iff_exists.mp hp
          obtain ⟨nn, hnn⟩ := Option.isSome_iff_exists.mp hn
          rw [hd1s] at hl
          simp [← hl, hpp, hnn, List.length_zipWith, hw1p pp hpp, hw1n nn hnn]
        · rw [h1] at hh; cases hh
    have hlen2 : ∀ l, (match d2.serr with
        | some s => List.zipWith (fun e x => efSq (efDiv e x)) s d2.data
        | none =>
          List.zipWith (fun e x => efDiv e (efSq x))
            (List.zipWith (fun a b => efMul (.fin 0.5) (efAdd (efSq a) (efSq b)))
              (d2.perr.getD []) (d2.nerr.getD [])) d2.data) = l →
        l.length = min d2.data.length d2.data.length := by
      intro l hl
      cases hd2s : d2.serr with
      | some t =>
        rw [hd2s] at hl
        simp [← hl, List.length_zipWith, hw2s t hd2s]
      | none =>
        rcases hs2 with hh | ⟨hp, hn⟩ | hh
        · simp [hd2s] at hh
        · obtain ⟨pp, hpp⟩ := Option.isSome_iff_exists.mp hp
          obtain ⟨nn, hnn⟩ := Option.isSome_iff_exists.mp hn
          rw [hd2s] at hl
          simp [← hl, hpp, hnn, List.length_zipWith, hw2p pp hpp, hw2n nn hnn]
        · rw [h2] at hh; cases hh
    refine ⟨?_, ?_, ?_⟩
    · intro s hs
      have l1 := hlen1 _ rfl
      have l2 := hlen2 _ rfl
      simp only [multiplyDatasetDataset, h1, h2] at hs
      simp at hs
      simp [← hs, List.length_zipWith, List.length_take, List.length_map] at l1 l2 ⊢
      omega
    · intro s hs
      simp [multiplyDatasetDataset, h1, h2] at hs
    · intro s hs
      simp [multiplyDatasetDataset, h1, h2] at hs



/-- Truncation behaviour of _divideDatasetDataset. -/
theorem div_truncOK (d1 d2 : DS) (hw1 : errWF d1) (hw2 : errWF d2)
    (hs1 : errShapeOK d1) (hs2 : errShapeOK d2) :
    truncOK d1 d2 (divideDatasetDataset d1 d2) := by
  obtain ⟨hw1s, hw1p, hw1n⟩ := hw1
  obtain ⟨hw2s, hw2p, hw2n⟩ := hw2
  have hm1 : min d1.data.length d2.data.length ≤ d1.data.length := Nat.min_le_left _ _
  have hm2 : min d1.data.length d2.data.length ≤ d2.data.length := Nat.min_le_right _ _
  refine ⟨by simp [divideDatasetDataset, List.length_zipWith, List.length_take], ?_⟩
  cases h1 : d1.hasErrors <;> cases h2 : d2.hasErrors
  · -- neither
    obtain ⟨e1s, e1p, e1n⟩ := hasErrors_false_fields d1 h1
    rw [if_neg (by simp)]
    refine ⟨?_, ?_, ?_⟩ <;>
      (intro s hs; simp [divideDatasetDataset, h1, h2, e1s, e1p, e1n] at hs)
  · -- only d2: the three sequential serr assignments
    obtain ⟨e1s, e1p, e1n⟩ := hasErrors_false_fields d1 h1
    rw [if_neg (by simp)]
    refine ⟨?_, ?_, ?_⟩
    · intro s hs
      cases hdn : d2.nerr with
      | some t =>
        have hlen := hw2n t hdn
        simp [divideDatasetDataset, h1, h2, hdn] at hs
        simp [← hs, List.length_take, List.length_zipWith]
        omega
      | none =>
        cases hdp : d2.perr with
        | some t =>
          have hlen := hw2p t hdp
          simp [divideDatasetDataset, h1, h2, hdn, hdp] at hs
          simp [← hs, List.length_take, List.length_zipWith]
          omega
        | none =>
          cases hds : d2.serr with
          | some t =>
            have hlen := hw2s t hds
            simp [divideDatasetDataset, h1, h2, hdn, hdp, hds] at hs
            simp [← hs, List.length_take, List.length_zipWith]
            omega
          | none => simp [DS.hasErrors, hds, hdp, hdn] at h2
    · intro s hs
      simp [divideDatasetDataset, h1, h2, e1p] at hs
    · intro s hs
      simp [divideDatasetDataset, h1, h2, e1n] at hs
  · -- only d1: errors kept (dead inner guards)
    obtain ⟨e2s, e2p, e2n⟩ := hasErrors_false_fields d2 h2
    rw [if_pos ⟨rfl, rfl⟩]
    refine ⟨?_, ?_, ?_⟩ <;> simp [divideDatasetDataset, h1, h2, e2s, e2p, e2n]
  · -- both
    rw [if_neg (by simp)]
    have hlen1 : ∀ l, (match d1.serr with
        | some s => List.zipWith (fun e x => efSq (efDiv e x)) s d1.data
        | none =>
          List.zipWith (fun e x => efDiv e (efSq x))
            (List.zipWith (fun a b => efMul (.fin 0.5) (efAdd (efSq a) (efSq b)))
              (d1.perr.getD []) (d1.nerr.getD [])) d1.data) = l →
        l.length = min d1.data.length d1.data.length := by
      intro l hl
      cases hd1s : d1.serr with
      | some t =>
        rw [hd1s] at hl
        simp [← hl, List.length_zipWith, hw1s t hd1s]
      | none =>
        rcases hs1 with hh | ⟨hp, hn⟩ | hh
        · simp [hd1s] at hh
        · obtain ⟨pp, hpp⟩ := Option.isSome_iff_exists.mp hp
          obtain ⟨nn, hnn⟩ := Option.isSome_iff_exists.mp hn
          rw [hd1s] at hl
          simp [← hl, hpp, hnn, List.length_zipWith, hw1p pp hpp, hw1n nn hnn]
        · rw [h1] at hh; cases hh
    have hlen2 : ∀ l, (match d2.serr with
        | some s => List.zipWith (fun e x => efSq (efDiv e x)) s d2.data
        | none =>
          List.zipWith (fun e x => efDiv e (efSq x))
            (List.zipWith (fun a b => efMul (.fin 0.5) (efAdd (efSq a) (efSq b)))
              (d2.perr.getD []) (d2.nerr.getD [])) d2.data) = l →
        l.length = min d2.data.length d2.data.length := by
      intro l hl
      cases hd2s : d2.serr with
      | some t =>
        rw [hd2s] at hl
        simp [← hl, List.length_zipWith, hw2s t hd2s]
      | none =>
        rcases hs2 with hh | ⟨hp, hn⟩ | hh
        · simp [hd2s] at hh
        · obtain ⟨pp, hpp⟩ := Option.isSome_iff_exists.mp hp
          obtain ⟨nn, hnn⟩ := Option.isSome_iff_exists.mp hn
          rw [hd2s] at hl
          simp [← hl, hpp, hnn, List.length_zipWith, hw2p pp hpp, hw2n nn hnn]
        · rw [h2] at hh; cases hh
    refine ⟨?_, ?_, ?_⟩
    · intro s hs
      have l1 := hlen1 _ rfl
      have l2 := hlen2 _ rfl
      simp only [divideDatasetDataset, h1, h2] at hs
      simp at hs
      simp [← hs, List.length_zipWith, List.length_take, List.length_map] at l1 l2 ⊢
      omega
    · intro s hs
      simp [divideDatasetDataset, h1, h2] at hs
    · intro s hs
      simp [divideDatasetDataset, h1, h2] at hs


/-- C4 counterexample  The claim says every error sequence still populated
after a binary dataset-dataset operation has the same length as the data; on
d1.data=[1,2,3] with serr=[1,1,1] and the error-free shorter d2.data=[4,5],
Add truncates the data to length 2 but keeps the three-element serr. -/
theorem c4_kept_serr_longer_than_data_cex :
    (addSubDataset ⟨[.fin 1, .fin 2, .fin 3], some [.fin 1, .fin 1, .fin 1], none, none⟩
        ⟨[.fin 4, .fin 5], none, none, none⟩ false).data.length = 2 ∧
    (addSubDataset ⟨[.fin 1, .fin 2, .fin 3], some [.fin 1, .fin 1, .fin 1], none, none⟩
        ⟨[.fin 4, .fin 5], none, none, none⟩ false).serr
      = some [.fin 1, .fin 1, .fin 1] := by
  constructor <;> norm_num [addSubDataset, DS.hasErrors, efAdd]

/-- C4 amended  For Add, Sub, SubFrom (the addSub kernel with operands
swapped), Mul and Div with a dataset operand, the mutated dataset's data has
length min(len(d1.data), len(d2.data)) and the model is total (no index
error); every error sequence the operation writes has that length, but when
only d1 has errors its pre-existing error sequences pass through unchanged
and may be longer than the truncated data. -/
theorem c4_binary_truncation (d1 d2 : DS) (sub : Bool) (hw1 : errWF d1) (hw2 : errWF d2)
    (hs1 : errShapeOK d1) (hs2 : errShapeOK d2) :
    truncOK d1 d2 (addSubDataset d1 d2 sub) ∧
    truncOK d1 d2 (multiplyDatasetDataset d1 d2) ∧
    truncOK d1 d2 (divideDatasetDataset d1 d2) :=
  ⟨addSub_truncOK d1 d2 sub hw1 hw2 hs1 hs2,
   mul_truncOK d1 d2 hw1 hw2 hs1 hs2,
   div_truncOK d1 d2 hw1 hw2 hs1 hs2⟩

/-- C4 witness  The truncation behaviour at two concrete datasets with
symmetric errors and lengths 2 and 1. -/
theorem c4_binary_truncation_witness :
    errWF ⟨[.fin 1, .fin 2], some [.fin 1, .fin 1], none, none⟩ ∧
    errWF ⟨[.fin 3], some [.fin 2], none, none⟩ ∧
    errShapeOK ⟨[.fin 1, .fin 2], some [.fin 1, .fin 1], none, none⟩ ∧
    errShapeOK ⟨[.fin 3], some [.fin 2], none, none⟩ ∧
    (truncOK ⟨[.fin 1, .fin 2], some [.fin 1, .fin 1], none, none⟩
       ⟨[.fin 3], some [.fin 2], none, none⟩
       (addSubDataset ⟨[.fin 1, .fin 2], some [.fin 1, .fin 1], none, none⟩
         ⟨[.fin 3], some [.fin 2], none, none⟩ false) ∧
     truncOK ⟨[.fin 1, .fin 2], some [.fin 1, .fin 1], none, none⟩
       ⟨[.fin 3], some [.fin 2], none, none⟩
       (multiplyDatasetDataset ⟨[.fin 1, .fin 2], some [.fin 1, .fin 1], none, none⟩
         ⟨[.fin 3], some [.fin 2], none, none⟩) ∧
     truncOK ⟨[.fin 1, .fin 2], some [.fin 1, .fin 1], none, none⟩
       ⟨[.fin 3], some [.fin 2], none, none⟩
       (divideDatasetDataset ⟨[.fin 1, .fin 2], some [.fin 1, .fin 1], none, none⟩
         ⟨[.fin 3], some [.fin 2], none, none⟩)) := by
  have hw1 : errWF ⟨[.fin 1, .fin 2], some [.fin 1, .fin 1], none, none⟩ := by
    refine ⟨?_, ?_, ?_⟩ <;> (intro s hs; cases hs) <;> rfl
  have hw2 : errWF ⟨[.fin 3], some [.fin 2], none, none⟩ := by
    refine ⟨?_, ?_, ?_⟩ <;> (intro s hs; cases hs) <;> rfl
  have hsh1 : errShapeOK ⟨[.fin 1, .fin 2], some [.fin 1, .fin 1], none, none⟩ := Or.inl rfl
  have hsh2 : errShapeOK ⟨[.fin 3], some [.fin 2], none, none⟩ := Or.inl rfl
  exact ⟨hw1, hw2, hsh1, hsh2, c4_binary_truncation _ _ false hw1 hw2 hsh1 hsh2⟩



/-- A dataset with a symmetrisable error has errors. -/
theorem symErr_hasErrors (d : DS) (s : List EF) (h : symErr d = some s) :
    d.hasErrors = true := by
  cases hds : d.serr with
  | some t => simp [DS.hasErrors, hds]
  | none =>
    cases hdp : d.perr with
    | none => simp [symErr, hds, hdp] at h
    | some p =>
      cases hdn : d.nerr with
      | none => simp [symErr, hds, hdp, hdn] at h
      | some n => simp [DS.hasErrors, hds, hdp, hdn]

/-- The squared-error list the code builds equals the elementwise square of
the spec-side symmetrised error. -/
theorem symErr_sq (d : DS) (s : List EF) (h : symErr d = some s) :
    (match d.serr with
     | some t => t.map efSq
     | none => List.zipWith (fun a b => efMul (.fin 0.5) (efAdd (efSq a) (efSq b)))
         (d.perr.getD []) (d.nerr.getD [])) = s.map efSq := by
  cases hds : d.serr with
  | some t =>
    simp [symErr, hds] at h
    rw [h]
  | none =>
    cases hdp : d.perr with
    | none => simp [symErr, hds, hdp] at h
    | some p =>
      cases hdn : d.nerr with
      | none => simp [symErr, hds, hdp, hdn] at h
      | some n =>
        simp only [symErr, hds, hdp, hdn, Option.some.injEq] at h
        rw [← h]
        simp only [Option.getD_some, List.map_zipWith]
        have : (fun a b => efSq (efSqrt (efMul (.fin 0.5) (efAdd (efSq a) (efSq b)))))
            = fun a b => efMul (.fin 0.5) (efAdd (efSq a) (efSq b)) := by
          funext a b; exact efSq_efSqrt_half a b
        rw [this]

/-- Pushing sqrt through the truncated sum of squared lists. -/
theorem sqrt_add_sq_zip (a b : List EF) (m : Nat) :
    (List.zipWith efAdd ((a.map efSq).take m) ((b.map efSq).take m)).map efSqrt =
      List.zipWith (fun x y => efSqrt (efAdd (efSq x) (efSq y))) (a.take m) (b.take m) := by
  rw [← List.map_take, ← List.map_take, List.zipWith_map, List.map_zipWith]

/-- C5  When both operands have errors, Add and Sub symmetrise first (a
dataset lacking serr derives one as sqrt(0.5*(perr^2+nerr^2)), the spec-side
symErr), then store sqrt(serr1^2 + serr2^2) truncated to the shared length as
the target's symmetric error, clearing perr and nerr; the data is the
truncated elementwise sum or difference. -/
theorem c5_add_sub_both_errors (d1 d2 : DS) (sub : Bool) (s1 s2 : List EF)
    (h1 : symErr d1 = some s1) (h2 : symErr d2 = some s2) :
    ((addSubDataset d1 d2 sub).serr =
      some (List.zipWith (fun a b => efSqrt (efAdd (efSq a) (efSq b)))
        (s1.take (min d1.data.length d2.data.length))
        (s2.take (min d1.data.length d2.data.length)))) ∧
    ((addSubDataset d1 d2 sub).perr = none) ∧
    ((addSubDataset d1 d2 sub).nerr = none) ∧
    ((addSubDataset d1 d2 sub).data =
      if sub then
        List.zipWith efSub (d1.data.take (min d1.data.length d2.data.length))
          (d2.data.take (min d1.data.length d2.data.length))
      else
        List.zipWith efAdd (d1.data.take (min d1.data.length d2.data.length))
          (d2.data.take (min d1.data.length d2.data.length))) := by
  have he1 := symErr_hasErrors d1 s1 h1
  have he2 := symErr_hasErrors d2 s2 h2
  refine ⟨?_, ?_, ?_, ?_⟩
  · simp only [addSubDataset, he1, he2, Bool.not_true, Bool.and_false, Bool.false_and,
      Bool.and_self, Bool.false_eq_true, Bool.true_and, Bool.and_true, if_false, if_true,
      ite_false, ite_true]
    rw [symErr_sq d1 s1 h1, symErr_sq d2 s2 h2, sqrt_add_sq_zip]
  · simp [addSubDataset, he1, he2]
  · simp [addSubDataset, he1, he2]
  · simp [addSubDataset, he1, he2]



/-- C5 witness  The concrete instance of the claim: d1.data=[1,2,3] with
serr=[0.1,0.1,0.1] and d2.data=[4,5,6] with serr=[0.2,0.2,0.2] give Add
data=[5,7,9] and serr=[sqrt(0.05),sqrt(0.05),sqrt(0.05)]. -/
theorem c5_add_sub_both_errors_witness :
    (symErr ⟨[.fin 1, .fin 2, .fin 3], some [.fin 0.1, .fin 0.1, .fin 0.1], none, none⟩
      = some [.fin 0.1, .fin 0.1, .fin 0.1]) ∧
    (symErr ⟨[.fin 4, .fin 5, .fin 6], some [.fin 0.2, .fin 0.2, .fin 0.2], none, none⟩
      = some [.fin 0.2, .fin 0.2, .fin 0.2]) ∧
    ((addSubDataset ⟨[.fin 1, .fin 2, .fin 3], some [.fin 0.1, .fin 0.1, .fin 0.1], none, none⟩
        ⟨[.fin 4, .fin 5, .fin 6], some [.fin 0.2, .fin 0.2, .fin 0.2], none, none⟩ false).data
      = [.fin 5, .fin 7, .fin 9]) ∧
    ((addSubDataset ⟨[.fin 1, .fin 2, .fin 3], some [.fin 0.1, .fin 0.1, .fin 0.1], none, none⟩
        ⟨[.fin 4, .fin 5, .fin 6], some [.fin 0.2, .fin 0.2, .fin 0.2], none, none⟩ false).serr
      = some [efSqrt (.fin 0.05), efSqrt (.fin 0.05), efSqrt (.fin 0.05)]) ∧
    ((addSubDataset ⟨[.fin 1, .fin 2, .fin 3], some [.fin 0.1, .fin 0.1, .fin 0.1], none, none⟩
        ⟨[.fin 4, .fin 5, .fin 6], some [.fin 0.2, .fin 0.2, .fin 0.2], none, none⟩ false).perr
      = none) ∧
    ((addSubDataset ⟨[.fin 1, .fin 2, .fin 3], some [.fin 0.1, .fin 0.1, .fin 0.1], none, none⟩
        ⟨[.fin 4, .fin 5, .fin 6], some [.fin 0.2, .fin 0.2, .fin 0.2], none, none⟩ false).nerr
      = none) := by
  obtain ⟨hserr, hperr, hnerr, hdata⟩ :=
    c5_add_sub_both_errors ⟨[.fin 1, .fin 2, .fin 3], some [.fin 0.1, .fin 0.1, .fin 0.1], none, none⟩
      ⟨[.fin 4, .fin 5, .fin 6], some [.fin 0.2, .fin 0.2, .fin 0.2], none, none⟩ false
      [.fin 0.1, .fin 0.1, .fin 0.1] [.fin 0.2, .fin 0.2, .fin 0.2] rfl rfl
  refine ⟨rfl, rfl, ?_, ?_, hperr, hnerr⟩
  · rw [hdata]
    norm_num [List.take, List.zipWith, efAdd]
  · rw [hserr]
    norm_num [List.take, List.zipWith, efSq, efAdd]


/-- C8  Every reduction-relative transform computes its scalar statistic over
only the finite entries of the data (the fn argument receives finVals, and
the registered variants SubMin, SubMax, SubMean, DivMax, DivMean, DivStd,
DivSum pass the external numpy statistic as fn); when the dataset has no
finite entries, subfn, divfn and NormRange leave the dataset, including its
error sequences, unchanged. -/
theorem c8_reductions_finite_only (fn : List ℝ → ℝ) (ds : DS) :
    (finVals ds.data = [] →
      subfn fn ds = ds ∧ divfn fn ds = ds ∧ normRange ds = ds) ∧
    (finVals ds.data ≠ [] →
      (subfn fn ds).data = ds.data.map (fun v => efSub v (.fin (fn (finVals ds.data)))) ∧
      (divfn fn ds).data =
        ds.data.map (fun v => efMul v (efDiv (.fin 1) (.fin (fn (finVals ds.data)))))) := by
  constructor
  · intro h
    have hlen : (finVals ds.data).length = 0 := by rw [h]; rfl
    refine ⟨?_, ?_, ?_⟩
    · simp [subfn, hlen]
    · apply DS.ext
      · simp [divfn, hlen, map_efMul_one]
      · cases hs : ds.serr <;> simp [divfn, hlen, map_efMul_one, hs]
      · cases hs : ds.perr <;> simp [divfn, hlen, map_efMul_one, hs]
      · cases hs : ds.nerr <;> simp [divfn, hlen, map_efMul_one, hs]
    · simp [normRange, hlen]
  · intro h
    have hlen : 0 < (finVals ds.data).length := List.length_pos.mpr h
    constructor
    · simp [subfn, hlen]
    · simp [divfn, hlen]

/-- C8 witness  On a dataset whose data is all nan and inf (zero finite
values) with a populated symmetric error, the reductions are no-ops. -/
theorem c8_reductions_finite_only_witness :
    (finVals [EF.nan, EF.pinf] = []) ∧
    (subfn (fun _ => 0) ⟨[.nan, .pinf], some [.fin 1, .fin 2], none, none⟩
      = ⟨[.nan, .pinf], some [.fin 1, .fin 2], none, none⟩ ∧
     divfn (fun _ => 0) ⟨[.nan, .pinf], some [.fin 1, .fin 2], none, none⟩
      = ⟨[.nan, .pinf], some [.fin 1, .fin 2], none, none⟩ ∧
     normRange ⟨[.nan, .pinf], some [.fin 1, .fin 2], none, none⟩
      = ⟨[.nan, .pinf], some [.fin 1, .fin 2], none, none⟩) :=
  ⟨rfl, (c8_reductions_finite_only (fun _ => 0)
    ⟨[.nan, .pinf], some [.fin 1, .fin 2], none, none⟩).1 rfl⟩



/-- C9  Clip with minv=0, maxv=10 maps data [-5,5,15] to [0,5,10]; on a
dataset with a symmetric error the recomputed positive error equals
clip(data+serr) - clip(data), the stored nerr is clip(data-serr) - clip(data)
so that its negation (the magnitude of the downward bar, nerr being stored
negated by repository convention) equals clip(data) - clip(data-serr), and
the prior symmetric error is discarded. -/
theorem c9_clip_bounds_and_errors (d : DS) (s : List EF) (minv maxv : EF) (hs : d.serr = some s) :
    ((clipDataset ⟨[.fin (-5), .fin 5, .fin 15], none, none, none⟩ (.fin 0) (.fin 10)).data
      = [.fin 0, .fin 5, .fin 10]) ∧
    ((clipDataset d minv maxv).serr = none) ∧
    ((clipDataset d minv maxv).perr =
      some (List.zipWith efSub
        ((List.zipWith efAdd d.data s).map (fun v => efClip v minv maxv))
        (d.data.map (fun v => efClip v minv maxv)))) ∧
    (∃ l, (clipDataset d minv maxv).nerr = some l ∧
      l.map efNeg = List.zipWith efSub
        (d.data.map (fun v => efClip v minv maxv))
        ((List.zipWith efSub d.data s).map (fun v => efClip v minv maxv))) := by
  refine ⟨?_, rfl, ?_, ?_⟩
  · norm_num [clipDataset, efClip, efMaxOp, efMinOp, max_def, min_def]
  · simp [clipDataset, hs]
  · refine ⟨_, by simp [clipDataset, hs], map_efNeg_zipWith_efSub _ _⟩

/-- C9 witness  At data=[1], serr=[2] with bounds 0 and 10: serr cleared,
perr=[2], nerr=[-1]. -/
theorem c9_clip_bounds_and_errors_witness :
    ((⟨[.fin 1], some [.fin 2], none, none⟩ : DS).serr = some [.fin 2]) ∧
    ((clipDataset ⟨[.fin (-5), .fin 5, .fin 15], none, none, none⟩ (.fin 0) (.fin 10)).data
      = [.fin 0, .fin 5, .fin 10]) ∧
    ((clipDataset ⟨[.fin 1], some [.fin 2], none, none⟩ (.fin 0) (.fin 10)).serr = none) ∧
    ((clipDataset ⟨[.fin 1], some [.fin 2], none, none⟩ (.fin 0) (.fin 10)).perr
      = some [.fin 2]) ∧
    ((clipDataset ⟨[.fin 1], some [.fin 2], none, none⟩ (.fin 0) (.fin 10)).nerr
      = some [.fin (-1)]) := by
  obtain ⟨hconc, hserr, hperr, hnerr⟩ :=
    c9_clip_bounds_and_errors ⟨[.fin 1], some [.fin 2], none, none⟩ [.fin 2] (.fin 0) (.fin 10) rfl
  refine ⟨rfl, hconc, hserr, ?_, ?_⟩
  · rw [hperr]
    norm_num [efClip, efMaxOp, efMinOp, efAdd, efSub, max_def, min_def]
  · norm_num [clipDataset, efClip, efMaxOp, efMinOp, efAdd, efSub, max_def, min_def]



/-- C10  SubFrom with a dataset operand writes the subtraction result (the
_addSubDataset kernel applied with the operands swapped, so the truncated
difference val - slot lands in val) into the operand dataset and returns the
slot array unchanged (the slot dataset keeps its data and all error fields);
only with a scalar operand is the slot dataset itself rewritten, to
val - data with errors untouched. -/
theorem c10_subfrom_frame (dss : Fin 5 → DS) (outds : String) (idx : Fin 5) (v : DS) (c : EF)
    (hidx : dsCodeToIdx outds = .ok idx) :
    (SubFromOp dss outds (.dsv v) = .ok (dss, some (addSubDataset v (dss idx) true))) ∧
    ((addSubDataset v (dss idx) true).data =
      List.zipWith efSub (v.data.take (min v.data.length (dss idx).data.length))
        ((dss idx).data.take (min v.data.length (dss idx).data.length))) ∧
    (SubFromOp dss outds (.scalar c) =
      .ok (fun i => if i = idx then
            { dss idx with data := (dss idx).data.map (fun x => efSub c x) }
          else dss i, none)) := by
  have hfr : (fun i => if i = idx then dss idx else dss i) = dss := by
    funext i
    by_cases h : i = idx <;> simp [h]
  refine ⟨?_, ?_, ?_⟩
  · simp only [SubFromOp, hidx, subfrom]
    rw [hfr]
  · simp only [addSubDataset, if_true]
    split
    · rfl
    · split <;> rfl
  · simp only [SubFromOp, hidx, subfrom]

/-- C10 witness  Role code y (slot 1) with a dataset operand leaves all
slots unchanged; with scalar 3 the slot is rewritten. -/
theorem c10_subfrom_frame_witness :
    (dsCodeToIdx "y" = .ok 1) ∧
    ((SubFromOp (fun _ => ⟨[.fin 1, .fin 2], some [.fin 1, .fin 1], none, none⟩) "y"
        (.dsv ⟨[.fin 5], none, none, none⟩) =
      .ok (fun _ => ⟨[.fin 1, .fin 2], some [.fin 1, .fin 1], none, none⟩,
        some (addSubDataset ⟨[.fin 5], none, none, none⟩
          ⟨[.fin 1, .fin 2], some [.fin 1, .fin 1], none, none⟩ true))) ∧
     ((addSubDataset ⟨[.fin 5], none, none, none⟩
         ⟨[.fin 1, .fin 2], some [.fin 1, .fin 1], none, none⟩ true).data =
       List.zipWith efSub
         (List.take (min 1 2) [.fin 5])
         (List.take (min 1 2) [.fin 1, .fin 2])) ∧
     (SubFromOp (fun _ => ⟨[.fin 1, .fin 2], some [.fin 1, .fin 1], none, none⟩) "y"
        (.scalar (.fin 3)) =
      .ok (fun i => if i = 1 then
            { (⟨[.fin 1, .fin 2], some [.fin 1, .fin 1], none, none⟩ : DS) with
                data := List.map (fun x => efSub (.fin 3) x) [.fin 1, .fin 2] }
          else ⟨[.fin 1, .fin 2], some [.fin 1, .fin 1], none, none⟩, none))) :=
  ⟨by decide, c10_subfrom_frame (fun _ => ⟨[.fin 1, .fin 2], some [.fin 1, .fin 1], none, none⟩) "y" 1
    ⟨[.fin 5], none, none, none⟩ (.fin 3) (by decide)⟩



/-- C6 counterexample  The claim says that once a header directive fixed a
column's type and name, later unparseable tokens are not reinterpreted as
directives; running readData on the rows ["x (float)"], ["1"], ["z"] (one
column, float type fixed by the first directive) ends with the column
renamed to "z": the token "z" failed the float parse and was taken as a new
directive. -/
theorem c6_directive_rebind_cex :
    colNameAt (readData toyParams [["x (float)"], ["1"], ["z"]]) 0 = some "z" ∧
    colNameAt (readData toyParams [["x (float)"], ["1"], ["z"]]) 0 ≠ some "x" := by
  constructor <;> decide

/-- C6 amended  Only string-typed columns are sticky: when the registered
type is string every token converts (pass-through), so a successful-path
invocation leaves the column's registered name and type unchanged; but when
the registered type is float or date and the token fails the corresponding
parse and is not blank after stripping, the token IS reinterpreted as a new
header directive: the engine re-runs _getNameAndColType and re-registers the
column with the resulting name and type. -/
theorem c6_sticky_and_rebind (p : CParams) (st : CState) (colnum : Nat) (col : String) :
    (ctypeOf st colnum = "string" → (st.colnames colnum).isSome = true →
      ∀ st2, processToken p st colnum col = .ok st2 →
        st2.colnames = st.colnames ∧ st2.coltypes = st.coltypes) ∧
    ((ctypeOf st colnum = "float" ∧ p.pFloat col = none ∨
      ctypeOf st colnum = "date" ∧ p.pDate col = none) →
      pyStrip col ≠ "" →
      ∀ t nm, getNameAndColType p st colnum (pyStrip col) = .ok (t, nm) →
        processToken p st colnum col = .ok (setNameAndType st colnum nm t)) := by
  constructor
  · intro hct hsome st2 h
    obtain ⟨nm, hnm⟩ := Option.isSome_iff_exists.mp hsome
    rw [processToken, hct] at h
    cases hd : st.data nm with
    | none => simp [hsome, hnm, hd] at h
    | some coldata =>
      simp [hsome, hnm, hd] at h
      rw [← h]
      exact ⟨rfl, rfl⟩
  · intro hcase hne t nm hg
    rcases hcase with ⟨hct, hpf⟩ | ⟨hct, hpf⟩ <;>
      (rw [processToken, hct]
       simp only [hpf, Option.map_none, if_neg hne, hg]) <;> rfl



/-- C6 witness  With the column registered as "x" of type float, the token
"z" fails the float parse and rebinds the column to name "z", type float. -/
theorem c6_sticky_and_rebind_witness :
    (ctypeOf (setNameAndType initState 0 "x" "float") 0 = "float" ∧
     toyParams.pFloat "z" = none) ∧
    (pyStrip "z" ≠ "") ∧
    (getNameAndColType toyParams (setNameAndType initState 0 "x" "float") 0 (pyStrip "z")
      = .ok ("float", "z")) ∧
    (processToken toyParams (setNameAndType initState 0 "x" "float") 0 "z"
      = .ok (setNameAndType (setNameAndType initState 0 "x" "float") 0 "z" "float")) :=
  ⟨⟨by decide, by decide⟩, by decide, by decide,
    (c6_sticky_and_rebind toyParams (setNameAndType initState 0 "x" "float") 0 "z").2
      (Or.inl ⟨by decide, by decide⟩) (by decide) "float" "z" (by decide)⟩



/-- A preceding column usable as an error-suffix base: it is named and its
name does not end in a plus or minus. -/
def goodAt (st : CState) (j : Nat) : Prop :=
  ∃ n, st.colnames j = some n ∧ goodBase n = true

/-- Characterisation of the backward scan when every preceding column is
named and within coltypes: it finds the nearest good base, or reports that
none exists, and never raises. -/
theorem scanPrev_char (st : CState) (nm : String) (k : Nat)
    (hnames : ∀ j, j < k → (st.colnames j).isSome = true)
    (hlen : ∀ j, j < k → j < st.coltypes.length) :
    (∃ j bn t, j < k ∧ st.colnames j = some bn ∧ goodBase bn = true ∧
      (∀ i, j < i → i < k → ¬ goodAt st i) ∧
      st.coltypes[j]? = some t ∧
      scanPrev st nm k = .ok (some (t, bn ++ nm))) ∨
    ((∀ j, j < k → ¬ goodAt st j) ∧ scanPrev st nm k = .ok none) := by
  induction k with
  | zero => exact Or.inr ⟨fun j hj => absurd hj (Nat.not_lt_zero j), rfl⟩
  | succ k ih =>
    have hk : (st.colnames k).isSome = true := hnames k (Nat.lt_succ_self k)
    obtain ⟨n, hn⟩ := Option.isSome_iff_exists.mp hk
    by_cases hg : goodBase n = true
    · left
      have hkl : k < st.coltypes.length := hlen k (Nat.lt_succ_self k)
      cases hq : st.coltypes[k]? with
      | none =>
        rw [List.getElem?_eq_none_iff] at hq
        omega
      | some t =>
        refine ⟨k, n, t, Nat.lt_succ_self k, hn, hg, ?_, hq, ?_⟩
        · intro i hi hik; omega
        · simp [scanPrev, hn, hg, hq]
    · have ih' := ih (fun j hj => hnames j (Nat.lt_succ_of_lt hj))
        (fun j hj => hlen j (Nat.lt_succ_of_lt hj))
      have hnotk : ¬ goodAt st k := by
        rintro ⟨m, hm, hgm⟩
        rw [hn] at hm
        cases hm
        exact hg hgm
      rcases ih' with ⟨j, bn, t, hj, hbn, hgb, hnb, hq, hsc⟩ | ⟨hall, hsc⟩
      · left
        refine ⟨j, bn, t, Nat.lt_succ_of_lt hj, hbn, hgb, ?_, hq, ?_⟩
        · intro i hi hik
          rcases Nat.lt_succ_iff_lt_or_eq.mp hik with h | rfl
          · exact hnb i hi h
          · exact hnotk
        · simp [scanPrev, hn, hg, hsc]
      · right
        refine ⟨?_, by simp [scanPrev, hn, hg, hsc]⟩
        intro j hj
        rcases Nat.lt_succ_iff_lt_or_eq.mp hj with h | rfl
        · exact hall j h
        · exact hnotk

/-- C7 amended  For a directive token whose candidate name is exactly +, -
or +-, provided every column index below the current one already has a
registered name (and a coltypes entry, which _setNameAndType guarantees
together with the name), the resolution never raises: it binds the column to
the nearest preceding base name (one not ending in + or -) with the suffix
appended and that base column's registered type, and falls back to the
auto-generated name when no base exists.  Without that proviso the scan can
raise KeyError (see the counterexample). -/
theorem c7_suffix_resolution (p : CParams) (st : CState) (colnum : Nat) (colval nm : String)
    (rest : List String)
    (hnm : nm = "+" ∨ nm = "-" ∨ nm = "+-")
    (hsplit : pySplit (pyStrip colval) = nm :: rest)
    (hnames : ∀ j, j < colnum → (st.colnames j).isSome = true)
    (hlen : ∀ j, j < colnum → j < st.coltypes.length) :
    (∃ j bn t, j < colnum ∧ st.colnames j = some bn ∧ goodBase bn = true ∧
      (∀ i, j < i → i < colnum → ¬ goodAt st i) ∧
      st.coltypes[j]? = some t ∧
      getNameAndColType p st colnum colval = .ok (t, bn ++ nm)) ∨
    ((∀ j, j < colnum → ¬ goodAt st j) ∧
      getNameAndColType p st colnum colval =
        .ok (resolveTypeWord ((nm :: rest).getLastD ""),
          p.pfx ++ generateName p colnum ++ p.sfx)) := by
  rcases scanPrev_char st nm colnum hnames hlen with
    ⟨j, bn, t, hj, hbn, hgb, hnb, hq, hsc⟩ | ⟨hall, hsc⟩
  · left
    refine ⟨j, bn, t, hj, hbn, hgb, hnb, hq, ?_⟩
    rw [getNameAndColType, hsplit]
    simp only [List.headD_cons, if_pos hnm, hsc]
  · right
    refine ⟨hall, ?_⟩
    rw [getNameAndColType, hsplit]
    simp only [List.headD_cons, if_pos hnm, hsc]

/-- C7 counterexample  The claim says the resolution never raises for any
sequence of preceding column states; on the single row [" ", "+"] the blank
first token leaves column 0 unnamed, and the "+" directive in column 1 scans
back to colnames[0], raising KeyError out of readData. -/
theorem c7_keyerror_cex :
    runErr (readData toyParams [[" ", "+"]]) = some "KeyError" := by decide

/-- C7 witness  With column 0 registered as "y" (float), the directive "+"
in column 1 resolves to name "y+" with type float. -/
theorem c7_suffix_resolution_witness :
    (pySplit (pyStrip "+") = ["+"]) ∧
    (∀ j, j < 1 → ((setNameAndType initState 0 "y" "float").colnames j).isSome = true) ∧
    (∀ j, j < 1 → j < (setNameAndType initState 0 "y" "float").coltypes.length) ∧
    ((∃ j bn t, j < 1 ∧
        (setNameAndType initState 0 "y" "float").colnames j = some bn ∧
        goodBase bn = true ∧
        (∀ i, j < i → i < 1 → ¬ goodAt (setNameAndType initState 0 "y" "float") i) ∧
        (setNameAndType initState 0 "y" "float").coltypes[j]? = some t ∧
        getNameAndColType toyParams (setNameAndType initState 0 "y" "float") 1 "+"
          = .ok (t, bn ++ "+")) ∨
      ((∀ j, j < 1 → ¬ goodAt (setNameAndType initState 0 "y" "float") j) ∧
        getNameAndColType toyParams (setNameAndType initState 0 "y" "float") 1 "+"
          = .ok (resolveTypeWord ((["+"] : List String).getLastD ""),
            toyParams.pfx ++ generateName toyParams 1 ++ toyParams.sfx))) ∧
    (getNameAndColType toyParams (setNameAndType initState 0 "y" "float") 1 "+"
      = .ok ("float", "y+")) := by
  have hnames : ∀ j, j < 1 →
      ((setNameAndType initState 0 "y" "float").colnames j).isSome = true := by
    intro j hj
    have hj0 : j = 0 := by omega
    subst hj0
    decide
  have hlen : ∀ j, j < 1 → j < (setNameAndType initState 0 "y" "float").coltypes.length := by
    intro j hj
    have hj0 : j = 0 := by omega
    subst hj0
    decide
  exact ⟨by decide, hnames, hlen,
    c7_suffix_resolution toyParams (setNameAndType initState 0 "y" "float") 1 "+" "+" []
      (Or.inl rfl) (by decide) hnames hlen,
    by decide⟩

end Veusz
